import Mathlib

/-!
Verification model of `convert_to_iceberg.py` (mirrulations-iceberg).

The Python source is shallowly embedded: pure transformations (the three
record flatteners, agency derivation, filtering) become Lean functions on a
JSON value type; the storage layer is modelled by an abstract file-system
record plus explicit error outcomes; the conversion driver's statistics and
exit behaviour become explicit state-passing functions.  Python `dict`s are
modelled as association lists in insertion order with overwrite-in-place
assignment, matching CPython semantics.  Fallible Python code (operations
that can raise) returns `Except`.
-/

/-- JSON values as produced by `json.load` in the converter.  Numbers are
modelled as integers (the converter itself only ever creates integer
counts; attribute values pass through opaquely). -/
inductive Json where
  | null : Json
  | bool (b : Bool) : Json
  | num (n : Int) : Json
  | str (s : String) : Json
  | arr (xs : List Json) : Json
  | obj (fields : List (String × Json)) : Json

/-- Row of a flattened record: column name to value, in insertion order,
modelling the Python dict built by the flatteners. -/
abbrev Row := List (String × Json)

/-- Lookup of a key in a Python-dict association list (first binding). -/
def olookup : List (String × Json) → String → Option Json
  | [], _ => none
  | (k, v) :: rest, key => if k = key then some v else olookup rest key

/-- Python dict assignment `d[k] = v`: overwrite the first binding of `k`
in place, else append a new binding at the end. -/
def dinsert : List (String × Json) → String → Json → List (String × Json)
  | [], k, v => [(k, v)]
  | (k', v') :: rest, k, v =>
    if k' = k then (k', v) :: rest else (k', v') :: dinsert rest k v

/-- Python `is None` test on a JSON value. -/
def Json.isNull : Json → Bool
  | .null => true
  | _ => false

/-- Python truthiness of a JSON value (`if x:`). -/
def pyTruthy : Json → Bool
  | .null => false
  | .bool b => b
  | .num n => n != 0
  | .str s => !s.data.isEmpty
  | .arr xs => !xs.isEmpty
  | .obj fs => !fs.isEmpty

/-- Python `len(x)` on a JSON value; raises `TypeError` on values without
a length (modelled as `Except.error`). -/
def pyLen : Json → Except Unit Nat
  | .arr xs => .ok xs.length
  | .str s => .ok s.data.length
  | .obj fs => .ok fs.length
  | _ => .error ()

/-- Python `d.get(k, dflt)`: raises (`AttributeError`) when `d` is not a
dict, else returns the binding of `k` or the default. -/
def pyDictGetD : Json → String → Json → Except Unit Json
  | .obj fs, k, dflt => .ok ((olookup fs k).getD dflt)
  | _, _, _ => .error ()

/-- Python `d.items()`: the field list of a dict, raising on non-dicts. -/
def asObj : Json → Except Unit (List (String × Json))
  | .obj fs => .ok fs
  | _ => .error ()

/-- Exception-propagating sequencing, the shape of straight-line Python
code where any step may raise. -/
def ebind (x : Except Unit α) (f : α → Except Unit β) : Except Unit β :=
  match x with
  | .error e => .error e
  | .ok a => f a

/-- The attribute-spreading loop shared by all three flatteners:
`for key, value in attributes.items(): if value is not None: row[key] = value`. -/
def attrFold : Row → List (String × Json) → Row
  | row, [] => row
  | row, (k, v) :: rest =>
    attrFold (if v.isNull then row else dinsert row k v) rest

/-- The relationship loop of the docket and document flatteners:
for each relationship whose value is a dict carrying a `data` key,
set `<name>_count` to `len(rel_data["data"])`. -/
def relFold : Row → List (String × Json) → Except Unit Row
  | row, [] => .ok row
  | row, (nm, rd) :: rest =>
    match rd with
    | .obj rfs =>
      match olookup rfs "data" with
      | some dv => ebind (pyLen dv) fun n =>
          relFold (dinsert row (nm ++ "_count") (.num (Int.ofNat n))) rest
      | none => relFold row rest
    | _ => relFold row rest

/-- Embedding of `IcebergConverter.flatten_docket_data`. -/
def flatten_docket_data (json_data : Json) : Except Unit Row :=
  ebind (pyDictGetD json_data "data" (.obj [])) fun data =>
  ebind (pyDictGetD data "id" .null) fun idv =>
  ebind (pyDictGetD data "type" .null) fun tyv =>
  ebind (pyDictGetD data "links" (.obj [])) fun links =>
  ebind (pyDictGetD links "self" .null) fun linkv =>
  ebind (pyDictGetD data "attributes" (.obj [])) fun attrsJ =>
  ebind (asObj attrsJ) fun attrs =>
  ebind (pyDictGetD data "relationships" (.obj [])) fun relsJ =>
  ebind (asObj relsJ) fun rels =>
  relFold (attrFold [("id", idv), ("type", tyv), ("link", linkv)] attrs) rels

/-- Embedding of `IcebergConverter.flatten_document_data` (textually the
same policy as the docket flattener in the source). -/
def flatten_document_data (json_data : Json) : Except Unit Row :=
  ebind (pyDictGetD json_data "data" (.obj [])) fun data =>
  ebind (pyDictGetD data "id" .null) fun idv =>
  ebind (pyDictGetD data "type" .null) fun tyv =>
  ebind (pyDictGetD data "links" (.obj [])) fun links =>
  ebind (pyDictGetD links "self" .null) fun linkv =>
  ebind (pyDictGetD data "attributes" (.obj [])) fun attrsJ =>
  ebind (asObj attrsJ) fun attrs =>
  ebind (pyDictGetD data "relationships" (.obj [])) fun relsJ =>
  ebind (asObj relsJ) fun rels =>
  relFold (attrFold [("id", idv), ("type", tyv), ("link", linkv)] attrs) rels

/-- Embedding of `IcebergConverter.flatten_comment_data`: the base row is
built in the order id, link, type; attributes are spread in; then only the
`attachments` relationship is consulted (for `has_attachments` and
`attachment_count`), and the top-level `included` list drives
`has_included_attachments` / `included_attachment_count`. -/
def flatten_comment_data (json_data : Json) : Except Unit Row :=
  ebind (pyDictGetD json_data "data" (.obj [])) fun data =>
  ebind (pyDictGetD data "id" .null) fun idv =>
  ebind (pyDictGetD data "links" (.obj [])) fun links =>
  ebind (pyDictGetD links "self" .null) fun linkv =>
  ebind (pyDictGetD data "type" .null) fun tyv =>
  ebind (pyDictGetD data "attributes" (.obj [])) fun attrsJ =>
  ebind (asObj attrsJ) fun attrs =>
  ebind (pyDictGetD data "relationships" (.obj [])) fun relsJ =>
  ebind (pyDictGetD relsJ "attachments" (.obj [])) fun attachments =>
  ebind (pyDictGetD attachments "data" (.arr [])) fun attData =>
  ebind (pyLen attData) fun n =>
  let row := attrFold [("id", idv), ("link", linkv), ("type", tyv)] attrs
  let row := dinsert row "has_attachments" (.bool (decide (0 < n)))
  let row := dinsert row "attachment_count" (.num (Int.ofNat n))
  ebind (pyDictGetD json_data "included" (.arr [])) fun included =>
  if pyTruthy included then
    ebind (pyLen included) fun m =>
      .ok (dinsert (dinsert row "has_included_attachments" (.bool true))
        "included_attachment_count" (.num (Int.ofNat m)))
  else
    .ok (dinsert (dinsert row "has_included_attachments" (.bool false))
      "included_attachment_count" (.num 0))

/-- Python `c in s` for a single character, as used by the agency
derivation (`'/' in docket_id`). -/
def pyIn (c : Char) (s : String) : Bool := s.data.any (fun a => a == c)

/-- First element of Python `s.split(c)`: the characters before the first
occurrence of `c` (the whole string when `c` does not occur). -/
def firstSplit (c : Char) (s : String) : String :=
  String.mk (s.data.takeWhile (fun a => a != c))

/-- Agency derivation from a docket identifier, embedded from the logic
duplicated at `process_docket` and `_should_process_docket`: the part
before the first `/` when one occurs, else before the first `-`, else
the literal `UNKNOWN`. -/
def derive_agency (s : String) : String :=
  if pyIn '/' s then firstSplit '/' s
  else if pyIn '-' s then firstSplit '-' s
  else "UNKNOWN"

/-- Python `s.upper()` restricted to the ASCII range the converter uses. -/
def pyUpper (s : String) : String := String.mk (s.data.map Char.toUpper)

/-- Shell-glob matching as performed by `fnmatch.fnmatch` on POSIX for the
patterns this tool documents (`*` and `?`); other characters match
literally. -/
def globMatch : List Char → List Char → Bool
  | [], [] => true
  | [], _ :: _ => false
  | '*' :: ps, [] => globMatch ps []
  | '*' :: ps, c :: cs => globMatch ps (c :: cs) || globMatch ('*' :: ps) cs
  | '?' :: _, [] => false
  | '?' :: ps, _ :: cs => globMatch ps cs
  | _ :: _, [] => false
  | p :: ps, c :: cs => p == c && globMatch ps cs
  termination_by ps cs => (ps.length, cs.length)

/-- The converter's two mutable filter slots (`agency_filter`,
`docket_pattern_filter`); `none` models Python `None`. -/
structure Filters where
  agency_filter : Option String
  docket_pattern_filter : Option String

/-- Filter state as set up in `IcebergConverter.__init__`. -/
def emptyFilters : Filters := ⟨none, none⟩

/-- Embedding of `IcebergConverter.add_filters`: a truthy agency argument
is stored upper-cased; a truthy docket pattern is stored verbatim. -/
def add_filters (f : Filters) (agency : Option String) (docket_pattern : Option String) : Filters :=
  let f1 : Filters :=
    match agency with
    | some a => if a.data.isEmpty then f else ⟨some (pyUpper a), f.docket_pattern_filter⟩
    | none => f
  match docket_pattern with
  | some p => if p.data.isEmpty then f1 else ⟨f1.agency_filter, some p⟩
  | none => f1

/-- Embedding of `IcebergConverter._should_process_docket` applied to the
docket directory's leaf name: reject when a (truthy) agency filter differs
from the derived agency under exact string comparison, then reject when a
(truthy) pattern filter fails to glob-match the name. -/
def should_process_docket (f : Filters) (docket_name : String) : Bool :=
  let agencyPass :=
    match f.agency_filter with
    | some af => if af.data.isEmpty then true else derive_agency docket_name = af
    | none => true
  let patternPass :=
    match f.docket_pattern_filter with
    | some p => if p.data.isEmpty then true else globMatch p.data docket_name.data
    | none => true
  agencyPass && patternPass

/-- Error classes raised by the storage layer, following the `except`
clauses of `load_json_file` and `list_directory`. -/
inductive PyErr where
  | permissionDenied : PyErr
  | fileNotFound : PyErr
  | jsonDecode : PyErr
  | otherError : PyErr
  deriving DecidableEq

/-- Embedding of `IcebergConverter.list_directory`.  The argument is the
outcome of the underlying listing call (`s3fs.ls` when `is_s3`, else
`Path.iterdir`); both branches wrap the call in a catch-all handler that
logs and returns the empty list. -/
def list_directory (is_s3 : Bool) (raw : Except PyErr (List String)) :
    Except PyErr (List String) :=
  match is_s3, raw with
  | _, .ok names => .ok names
  | _, .error _ => .ok []

/-- Embedding of `IcebergConverter.load_json_file`.  The argument is the
outcome of opening, reading and parsing the file; `PermissionError` is
re-raised, while missing files, JSON decode errors and any other
exception produce `None`. -/
def load_json_file (raw : Except PyErr Json) : Except PyErr (Option Json) :=
  match raw with
  | .ok j => .ok (some j)
  | .error .permissionDenied => .error .permissionDenied
  | .error .fileNotFound => .ok none
  | .error .jsonDecode => .ok none
  | .error .otherError => .ok none

/-- Run statistics tracked by the converter (`self.stats`). -/
structure Stats where
  processed : Nat
  skipped : Nat
  errors : Nat
  deriving DecidableEq

/-- Initial statistics. -/
def stats0 : Stats := ⟨0, 0, 0⟩

/-- Observable outcome of the body of `_process_single_docket` for one
docket: the dataset was saved; the dataset was empty (skipped); a
`PermissionError`/`OSError` was raised (counted and re-raised); or any
other exception was raised (counted and swallowed). -/
inductive DocketOutcome where
  | saved : DocketOutcome
  | noData : DocketOutcome
  | fatalError : DocketOutcome
  | nonFatalError : DocketOutcome
  deriving DecidableEq

/-- State change of `_process_single_docket`, returning the updated
statistics and whether the call re-raised. -/
def outcome_step (s : Stats) : DocketOutcome → Stats × Bool
  | .saved => (⟨s.processed + 1, s.skipped, s.errors⟩, false)
  | .noData => (⟨s.processed, s.skipped + 1, s.errors⟩, false)
  | .fatalError => (⟨s.processed, s.skipped, s.errors + 1⟩, true)
  | .nonFatalError => (⟨s.processed, s.skipped, s.errors + 1⟩, false)

/-- Docket loop of one agency in `_convert_local_dockets_streaming`: the
loop body runs inside a per-agency `try`, so a re-raised fatal error stops
the remaining dockets of that agency (the handler logs and continues with
the next agency). -/
def run_agency : Stats → List DocketOutcome → Stats
  | s, [] => s
  | s, o :: rest =>
    match outcome_step s o with
    | (s', true) => s'
    | (s', false) => run_agency s' rest

/-- Whole streaming run over the agencies in order. -/
def run_all (s : Stats) (agencies : List (List DocketOutcome)) : Stats :=
  match agencies with
  | [] => s
  | a :: rest => run_all (run_agency s a) rest

/-- Embedding of `IcebergConverter.convert_all`: `False` when the
permission pre-flight raised, else `True` exactly when the final error
counter is zero. -/
def convert_all (preflight_ok : Bool) (agencies : List (List DocketOutcome)) : Bool :=
  if preflight_ok then decide ((run_all stats0 agencies).errors = 0) else false

/-- Process exit status as produced by `main`: `convert_all` returning
`False` exits 1, otherwise the process ends with status 0. -/
def main_exit (preflight_ok : Bool) (agencies : List (List DocketOutcome)) : Nat :=
  if convert_all preflight_ok agencies then 0 else 1

/-- Whether any docket of the run raised the fatal (permission/IO) class. -/
def hasFatal (agencies : List (List DocketOutcome)) : Bool :=
  agencies.any (fun a => a.any (fun o => o = DocketOutcome.fatalError))

/-- Paths as segment lists; `join_paths` on the local backend is segment
concatenation. -/
abbrev FPath := List String

/-- Python `name.startswith(pfx)` for plain strings. -/
def pyStartsWith (s pre : String) : Bool := pre.data.isPrefixOf s.data

/-- `PathHandler.get_name`: the final path component. -/
def lastName (p : FPath) : String := p.getLast?.getD ""

/-- Abstract read-only view of the storage backend as consumed by
`process_docket`: existence checks, (already caught, hence total)
directory listing, the `*.json` glob of a directory, and the result of
`load_json_file` on a file (`none` for a missing or malformed file; the
fatal read-error path is modelled separately in `load_json_file`). -/
structure FS where
  pathExists : FPath → Bool
  dirs : FPath → List String
  jsonFiles : FPath → List String
  load : FPath → Option Json

/-- The alternative docket-info file loop of `process_docket`: try each
candidate path in order, stopping at the first that exists and loads to a
truthy JSON document. -/
def tryAltDocket (fs : FS) : List FPath → Except Unit (Option Row)
  | [] => .ok none
  | p :: rest =>
    if fs.pathExists p then
      match fs.load p with
      | some j =>
        if pyTruthy j then ebind (flatten_docket_data j) (fun r => .ok (some r))
        else tryAltDocket fs rest
      | none => tryAltDocket fs rest
    else tryAltDocket fs rest

/-- The `text-*` subdirectory loop for the docket-info file: for each
`text-` child in listing order, try `<base>/<t>/docket/<id>.json`,
stopping at the first truthy load. -/
def tryTextDocket (fs : FS) (base : FPath) (docket_id : String) :
    List String → Except Unit (Option Row)
  | [] => .ok none
  | t :: rest =>
    let p := base ++ [t, "docket", docket_id ++ ".json"]
    if fs.pathExists p then
      match fs.load p with
      | some j =>
        if pyTruthy j then ebind (flatten_docket_data j) (fun r => .ok (some r))
        else tryTextDocket fs base docket_id rest
      | none => tryTextDocket fs base docket_id rest
    else tryTextDocket fs base docket_id rest

/-- Docket-info resolution under one base directory (`raw-data` when it
exists, else the docket root), as written twice in `process_docket`:
canonical `docket/<id>.json` first (and only that when the file exists),
else the alternative names `docket.json` and `<id>.json`, else the
`text-*` subdirectories. -/
def resolveDocketInfo (fs : FS) (base : FPath) (docket_id : String) :
    Except Unit (Option Row) :=
  let canonical := base ++ ["docket", docket_id ++ ".json"]
  if fs.pathExists canonical then
    match fs.load canonical with
    | some j =>
      if pyTruthy j then ebind (flatten_docket_data j) (fun r => .ok (some r))
      else .ok none
    | none => .ok none
  else
    ebind (tryAltDocket fs [base ++ ["docket.json"], base ++ [docket_id ++ ".json"]]) fun r =>
      match r with
      | some row => .ok (some row)
      | none =>
        tryTextDocket fs base docket_id
          ((fs.dirs base).filter (fun d => pyStartsWith d "text-"))

/-- Loading loop over the globbed `*.json` files of one directory with the
given flattener: files that fail to load or are falsy are skipped, rows
are appended in glob order. -/
def loadRows (flat : Json → Except Unit Row) (fs : FS) (dir : FPath) :
    List String → Except Unit (List Row)
  | [] => .ok []
  | name :: rest =>
    match fs.load (dir ++ [name]) with
    | some j =>
      if pyTruthy j then
        ebind (flat j) fun r =>
          ebind (loadRows flat fs dir rest) fun rs => .ok (r :: rs)
      else loadRows flat fs dir rest
    | none => loadRows flat fs dir rest

/-- The flat attempt for a record directory: glob and load it when it
exists, else no rows. -/
def flatDirRows (flat : Json → Except Unit Row) (fs : FS) (dir : FPath) :
    Except Unit (List Row) :=
  if fs.pathExists dir then loadRows flat fs dir (fs.jsonFiles dir) else .ok []

/-- The `text-*` subdirectory loop for documents/comments: every `text-`
child is visited and its rows are appended (no early exit). -/
def textDirRows (flat : Json → Except Unit Row) (fs : FS) (base : FPath)
    (kind : String) : List String → Except Unit (List Row)
  | [] => .ok []
  | t :: rest =>
    let dir := base ++ [t, kind]
    if fs.pathExists dir then
      ebind (loadRows flat fs dir (fs.jsonFiles dir)) fun rs =>
        ebind (textDirRows flat fs base kind rest) fun rs2 => .ok (rs ++ rs2)
    else textDirRows flat fs base kind rest

/-- Resolution of one many-file record kind (documents or comments) under
one base directory: the flat `<base>/<kind>` directory first; only when it
produced no rows are the `text-*` subdirectories consulted. -/
def resolveKindRows (flat : Json → Except Unit Row) (fs : FS) (base : FPath)
    (kind : String) : Except Unit (List Row) :=
  ebind (flatDirRows flat fs (base ++ [kind])) fun direct =>
    if direct.isEmpty then
      textDirRows flat fs base kind
        ((fs.dirs base).filter (fun d => pyStartsWith d "text-"))
    else .ok direct

/-- All three source kinds resolved under one base directory, in the
order the source performs them (docket info, documents, comments). -/
def resolveKinds (fs : FS) (base : FPath) (docket_id : String) :
    Except Unit (Option Row × List Row × List Row) :=
  ebind (resolveDocketInfo fs base docket_id) fun di =>
  ebind (resolveKindRows flatten_document_data fs base "documents") fun ds =>
  ebind (resolveKindRows flatten_comment_data fs base "comments") fun cs =>
  .ok (di, ds, cs)

/-- Result dictionary of `process_docket`. -/
structure DocketResult where
  docket_info : Option Row
  documents : List Row
  comments : List Row
  agency : String
  docket_id : String

/-- Embedding of `IcebergConverter.process_docket`: derive agency and
docket id from the path, return the empty result when the docket path
does not exist, then resolve all three kinds under `<root>/raw-data` when
that directory exists and otherwise (and only otherwise) directly under
the docket root. -/
def process_docket (fs : FS) (docket_path : FPath) : Except Unit DocketResult :=
  let docket_id := lastName docket_path
  let agency := derive_agency docket_id
  if fs.pathExists docket_path then
    if fs.pathExists (docket_path ++ ["raw-data"]) then
      ebind (resolveKinds fs (docket_path ++ ["raw-data"]) docket_id) fun r =>
        .ok ⟨r.1, r.2.1, r.2.2, agency, docket_id⟩
    else
      ebind (resolveKinds fs docket_path docket_id) fun r =>
        .ok ⟨r.1, r.2.1, r.2.2, agency, docket_id⟩
  else
    .ok ⟨none, [], [], agency, docket_id⟩

/-- Write effects of the output layer: directory creation and one
columnar file write. -/
inductive WriteOp where
  | mkdirAll (p : FPath) : WriteOp
  | writeFile (p : FPath) : WriteOp
  deriving DecidableEq

/-- Embedding of `IcebergConverter.save_to_parquet` on its non-raising
path: empty row batches are refused, non-empty ones create the output
directory and write `<table>.parquet` inside it. -/
def save_to_parquet (rows : List Row) (table_name : String) (output_dir : FPath) :
    Bool × List WriteOp :=
  if rows.isEmpty then (false, [])
  else (true, [.mkdirAll output_dir, .writeFile (output_dir ++ [table_name ++ ".parquet"])])

/-- Embedding of `IcebergConverter.save_docket_dataset`: the output
directory gains a `derived-data` segment exactly when an explicit output
path was configured; each truthy table is saved in the order docket_info,
documents, comments; when nothing was attempted the docket reports
failure (no data), else success is the conjunction of the attempts. -/
def save_docket_dataset (use_derived_data_subdir : Bool) (output_path : FPath)
    (d : DocketResult) : Bool × List WriteOp :=
  let output_dir :=
    if use_derived_data_subdir then
      output_path ++ ["derived-data", d.agency, d.docket_id, "iceberg"]
    else
      output_path ++ [d.agency, d.docket_id, "iceberg"]
  let attempts : List (Bool × List WriteOp) :=
    (match d.docket_info with
     | some r => if r.isEmpty then [] else [save_to_parquet [r] "docket_info" output_dir]
     | none => []) ++
    (if d.documents.isEmpty then [] else [save_to_parquet d.documents "documents" output_dir]) ++
    (if d.comments.isEmpty then [] else [save_to_parquet d.comments "comments" output_dir])
  let files_created := (attempts.filter (fun a => a.1)).length
  let ws := (attempts.map (fun a => a.2)).flatten
  if files_created = 0 then (false, ws) else (attempts.all (fun a => a.1), ws)

/-- Output-path configuration from `IcebergConverter.__init__`: an
explicit output path is taken verbatim and flagged to need the
`derived-data` subdirectory; otherwise `<data_path>/derived-data` is the
output root with no extra segment. -/
def converter_init (data_path : FPath) (output_path : Option FPath) : FPath × Bool :=
  match output_path with
  | some op => (op, true)
  | none => (data_path ++ ["derived-data"], false)

/-- Statistics-and-write effect of the non-raising path of
`_process_single_docket` once the docket's dataset has been built:
a saved dataset counts as processed, a refused (empty) one as skipped. -/
def docket_step (use_derived_data_subdir : Bool) (output_path : FPath)
    (s : Stats) (d : DocketResult) : Stats × List WriteOp :=
  match save_docket_dataset use_derived_data_subdir output_path d with
  | (true, ws) => (⟨s.processed + 1, s.skipped, s.errors⟩, ws)
  | (false, ws) => (⟨s.processed, s.skipped + 1, s.errors⟩, ws)


/-- Output directory formula as the specification states it:
`<output_root>[/derived-data]/<agencyId>/<docketId>/iceberg`, where the
`derived-data` segment appears exactly when an explicit output root was
supplied (else the root is already `<data_path>/derived-data`). -/
def expected_output_dir (data_path : FPath) (output_path : Option FPath)
    (d : DocketResult) : FPath :=
  match output_path with
  | some root => root ++ ["derived-data", d.agency, d.docket_id, "iceberg"]
  | none => data_path ++ ["derived-data", d.agency, d.docket_id, "iceberg"]

/-- A JSON-API record whose single relationship `foo` carries a one-element
`data` list; input for exercising the relationship-count behaviour of the
flatteners. -/
def fooRelJson : Json :=
  .obj [("data", .obj
    [("id", .str "CMS-2025-0020-0001"),
     ("type", .str "comments"),
     ("relationships", .obj [("foo", .obj [("data", .arr [.null])])])])]

/-- Concrete docket root used to exercise layout resolution. -/
def cexRoot : FPath := ["FAA-2000-7032"]

/-- A well-formed document record present under the direct (no `raw-data`)
layout of `cexRoot`. -/
def cexDocJson : Json :=
  .obj [("data", .obj [("id", .str "FAA-2000-7032-0001"), ("type", .str "documents")])]

/-- Concrete storage state in which `<root>/raw-data` exists but holds no
sources at all, while `<root>/documents` (the direct-flat variant) holds
one well-formed document file. -/
def cexFS : FS where
  pathExists p := p = cexRoot || p = cexRoot ++ ["raw-data"] || p = cexRoot ++ ["documents"]
  dirs _ := []
  jsonFiles p := if p = cexRoot ++ ["documents"] then ["doc1.json"] else []
  load p := if p = cexRoot ++ ["documents", "doc1.json"] then some cexDocJson else none

/-- Fields of a concrete well-formed comment JSON document (one
attachment, no `included` list), used to instantiate general theorems. -/
def c9df : List (String × Json) :=
  [("id", .str "CMS-2025-0020-0002"),
   ("links", .obj [("self", .str "url")]),
   ("attributes", .obj [("title", .str "t")]),
   ("relationships", .obj [("attachments", .obj [("data", .arr [.null])])])]

/-- Top-level fields of the concrete comment document. -/
def c9jf : List (String × Json) := [("data", Json.obj c9df)]

/-- Fields of a comment document whose `attributes` dict carries a
non-null value under the reserved key `id`. -/
def c10df : List (String × Json) :=
  [("id", .str "REAL-ID"),
   ("links", .obj [("self", .str "url")]),
   ("attributes", .obj [("id", .str "SHADOW")]),
   ("relationships", .obj [("attachments", .obj [("data", .arr [])])])]

/-- Top-level fields of that document. -/
def c10jf : List (String × Json) := [("data", Json.obj c10df)]

theorem olookup_dinsert_self (r : Row) (k : String) (v : Json) :
    olookup (dinsert r k v) k = some v := by
  induction r with
  | nil => simp [dinsert, olookup]
  | cons p rest ih =>
    obtain ⟨k', v'⟩ := p
    by_cases h : k' = k
    · simp [dinsert, olookup, h]
    · simp [dinsert, olookup, h, ih]

theorem olookup_dinsert_ne (r : Row) (k k' : String) (v : Json) (h : k ≠ k') :
    olookup (dinsert r k v) k' = olookup r k' := by
  induction r with
  | nil => simp [dinsert, olookup, h]
  | cons p rest ih =>
    obtain ⟨k0, v0⟩ := p
    by_cases h0 : k0 = k
    · subst h0
      simp [dinsert, olookup, h]
    · simp [dinsert, olookup, h0, ih]

theorem isSome_olookup_dinsert (r : Row) (k k' : String) (v : Json)
    (h : (olookup r k').isSome) : (olookup (dinsert r k v) k').isSome := by
  by_cases hk : k = k'
  · subst hk
    simp [olookup_dinsert_self]
  · rwa [olookup_dinsert_ne r k k' v hk]

theorem attrFold_olookup_notin (attrs : List (String × Json)) (row : Row) (k : String)
    (h : k ∉ attrs.map Prod.fst) :
    olookup (attrFold row attrs) k = olookup row k := by
  induction attrs generalizing row with
  | nil => simp [attrFold]
  | cons p rest ih =>
    obtain ⟨k0, v0⟩ := p
    simp only [List.map_cons, List.mem_cons] at h
    push_neg at h
    obtain ⟨hne, hrest⟩ := h
    by_cases hn : v0.isNull
    · simp [attrFold, hn, ih _ hrest]
    · simp only [attrFold, hn, Bool.false_eq_true, if_false]
      rw [ih _ hrest, olookup_dinsert_ne row k0 k v0 (fun he => hne he.symm)]

theorem attrFold_olookup_mem (attrs : List (String × Json)) (row : Row) (k : String)
    (v : Json) (hnd : (attrs.map Prod.fst).Nodup) (hmem : (k, v) ∈ attrs)
    (hv : v.isNull = false) :
    olookup (attrFold row attrs) k = some v := by
  induction attrs generalizing row with
  | nil => cases hmem
  | cons p rest ih =>
    obtain ⟨k0, v0⟩ := p
    simp only [List.map_cons, List.nodup_cons] at hnd
    obtain ⟨hk0, hndr⟩ := hnd
    rcases List.mem_cons.mp hmem with he | hrest
    · injection he with h1 h2
      subst h1
      subst h2
      simp only [attrFold, hv, Bool.false_eq_true, if_false]
      rw [attrFold_olookup_notin rest _ k hk0, olookup_dinsert_self]
    · have hne : k0 ≠ k := by
        intro he0
        exact hk0 (he0 ▸ (List.mem_map.mpr ⟨(k, v), hrest, rfl⟩))
      by_cases hn : v0.isNull
      · simp only [attrFold, hn, if_true]
        exact ih row hndr hrest
      · simp only [attrFold, hn, Bool.false_eq_true, if_false]
        exact ih (dinsert row k0 v0) hndr hrest

theorem attrFold_isSome (attrs : List (String × Json)) (row : Row) (k : String)
    (h : (olookup row k).isSome) : (olookup (attrFold row attrs) k).isSome := by
  induction attrs generalizing row with
  | nil => simpa [attrFold]
  | cons p rest ih =>
    obtain ⟨k0, v0⟩ := p
    by_cases hn : v0.isNull
    · simp only [attrFold, hn, if_true]
      exact ih row h
    · simp only [attrFold, hn, Bool.false_eq_true, if_false]
      exact ih _ (isSome_olookup_dinsert row k0 k v0 h)

theorem count_key_data (nm : String) :
    (nm ++ "_count").data = nm.data ++ "_count".data := rfl

theorem count_key_ne (nm k : String) (h : ¬ ("_count".data <:+ k.data)) :
    nm ++ "_count" ≠ k := by
  intro he
  exact h ⟨nm.data, by rw [← count_key_data, he]⟩

theorem count_key_inj (a b : String) (h : a ++ "_count" = b ++ "_count") : a = b := by
  have hd : a.data ++ "_count".data = b.data ++ "_count".data := by
    rw [← count_key_data, ← count_key_data, h]
  have hab : a.data = b.data := List.append_cancel_right hd
  calc a = String.mk a.data := rfl
    _ = String.mk b.data := by rw [hab]
    _ = b := rfl

theorem relFold_preserve (rels : List (String × Json)) (row row' : Row) (k : String)
    (hok : relFold row rels = .ok row') (h : ∀ p ∈ rels, p.1 ++ "_count" ≠ k) :
    olookup row' k = olookup row k := by
  induction rels generalizing row with
  | nil =>
    simp only [relFold, Except.ok.injEq] at hok
    rw [hok]
  | cons p rest ih =>
    obtain ⟨nm, rd⟩ := p
    have hhead : nm ++ "_count" ≠ k := h (nm, rd) (List.mem_cons_self _ _)
    have hrest : ∀ p ∈ rest, p.1 ++ "_count" ≠ k :=
      fun p hp => h p (List.mem_cons_of_mem _ hp)
    match rd with
    | .null | .bool _ | .num _ | .str _ | .arr _ =>
      simp only [relFold] at hok
      exact ih _ hok hrest
    | .obj rfs =>
      simp only [relFold] at hok
      match hdv : olookup rfs "data" with
      | none =>
        simp only [hdv] at hok
        exact ih _ hok hrest
      | some dv =>
        simp only [hdv] at hok
        match hn : pyLen dv with
        | .error e =>
          simp [hn, ebind] at hok
        | .ok n =>
          simp only [hn, ebind] at hok
          rw [ih _ hok hrest, olookup_dinsert_ne _ _ _ _ hhead]

theorem relFold_isSome (rels : List (String × Json)) (row row' : Row) (k : String)
    (hok : relFold row rels = .ok row') (h : (olookup row k).isSome) :
    (olookup row' k).isSome := by
  induction rels generalizing row with
  | nil =>
    simp only [relFold, Except.ok.injEq] at hok
    rw [← hok]; exact h
  | cons p rest ih =>
    obtain ⟨nm, rd⟩ := p
    match rd with
    | .null | .bool _ | .num _ | .str _ | .arr _ =>
      simp only [relFold] at hok
      exact ih _ hok h
    | .obj rfs =>
      simp only [relFold] at hok
      match hdv : olookup rfs "data" with
      | none =>
        simp only [hdv] at hok
        exact ih _ hok h
      | some dv =>
        simp only [hdv] at hok
        match hn : pyLen dv with
        | .error e =>
          simp [hn, ebind] at hok
        | .ok n =>
          simp only [hn, ebind] at hok
          exact ih _ hok (isSome_olookup_dinsert _ _ _ _ h)

theorem relFold_count (rels : List (String × Json)) (row row' : Row) (nm : String)
    (rd : List (String × Json)) (xs : List Json)
    (hnd : (rels.map Prod.fst).Nodup) (hmem : (nm, Json.obj rd) ∈ rels)
    (hdata : olookup rd "data" = some (.arr xs))
    (hok : relFold row rels = .ok row') :
    olookup row' (nm ++ "_count") = some (.num (Int.ofNat xs.length)) := by
  induction rels generalizing row with
  | nil => cases hmem
  | cons p rest ih =>
    obtain ⟨nm0, rd0⟩ := p
    simp only [List.map_cons, List.nodup_cons] at hnd
    obtain ⟨hk0, hndr⟩ := hnd
    rcases List.mem_cons.mp hmem with he | hrest
    · injection he with h1 h2
      subst h1
      subst h2
      simp only [relFold, hdata, pyLen, ebind] at hok
      have hpres : ∀ p ∈ rest, p.1 ++ "_count" ≠ nm ++ "_count" := by
        intro p hp he2
        exact hk0 ((count_key_inj _ _ he2) ▸ (List.mem_map.mpr ⟨p, hp, rfl⟩))
      rw [relFold_preserve rest _ _ _ hok hpres, olookup_dinsert_self]
    · have hne : nm0 ≠ nm := by
        intro he0
        exact hk0 (he0 ▸ (List.mem_map.mpr ⟨(nm, Json.obj rd), hrest, rfl⟩))
      match rd0 with
      | .null | .bool _ | .num _ | .str _ | .arr _ =>
        simp only [relFold] at hok
        exact ih _ hndr hrest hok
      | .obj rfs =>
        simp only [relFold] at hok
        match hdv : olookup rfs "data" with
        | none =>
          simp only [hdv] at hok
          exact ih _ hndr hrest hok
        | some dv =>
          simp only [hdv] at hok
          match hn : pyLen dv with
          | .error e =>
            simp [hn, ebind] at hok
          | .ok n =>
            simp only [hn, ebind] at hok
            exact ih _ hndr hrest hok

theorem takeWhile_append_sep (c : Char) (l1 l2 : List Char) (h : c ∉ l1) :
    (l1 ++ c :: l2).takeWhile (fun a => a != c) = l1 := by
  induction l1 with
  | nil => simp [List.takeWhile]
  | cons a rest ih =>
    have hne : a ≠ c := fun he => h (he ▸ List.mem_cons_self a rest)
    have hrest : c ∉ rest := fun hm => h (List.mem_cons_of_mem _ hm)
    simp [List.takeWhile_cons, bne_iff_ne, hne, ih hrest]

theorem pyIn_true_of_mem (c : Char) (s : String) (h : c ∈ s.data) :
    pyIn c s = true := by
  simp only [pyIn, List.any_eq_true]
  exact ⟨c, h, by simp⟩

theorem pyIn_false_of_notin (c : Char) (s : String) (h : c ∉ s.data) :
    pyIn c s = false := by
  simp only [pyIn, List.any_eq_false]
  intro a ha
  simp only [beq_iff_eq]
  intro he
  exact h (he ▸ ha)

/-- C2 counterexample: on the local-filesystem backend, a permission
error raised by the underlying directory iteration is swallowed into an
empty listing instead of being propagated to the caller. -/
theorem c2_local_list_perm_swallowed :
    list_directory false (Except.error PyErr.permissionDenied) = Except.ok [] := rfl

/-- C2 (amended): listing failures on BOTH backends — including local
permission errors — return an empty result and never raise; a permission
error during a file read is propagated, while a missing file, a JSON
decode error or any other read failure yields no data without raising. -/
theorem c2_storage_error_policy (b : Bool) (e : PyErr) (ns : List String) (j : Json) :
    list_directory b (Except.error e) = Except.ok []
    ∧ list_directory b (Except.ok ns) = Except.ok ns
    ∧ load_json_file (Except.error PyErr.permissionDenied)
        = Except.error PyErr.permissionDenied
    ∧ load_json_file (Except.error PyErr.fileNotFound) = Except.ok none
    ∧ load_json_file (Except.error PyErr.jsonDecode) = Except.ok none
    ∧ load_json_file (Except.error PyErr.otherError) = Except.ok none
    ∧ load_json_file (Except.ok j) = Except.ok (some j) :=
  ⟨rfl, rfl, rfl, rfl, rfl, rfl, rfl⟩

/-- C3 counterexample: with the agency filter `CMS`, the docket
`cms-2025-0020` — whose derived agency equals the filter up to letter
case — is rejected by the filtering predicate. -/
theorem c3_lowercase_agency_rejected :
    should_process_docket (add_filters emptyFilters (some "CMS") none) "cms-2025-0020" = false
    ∧ pyUpper (derive_agency "cms-2025-0020") = pyUpper "CMS" := by
  constructor
  · rfl
  · rfl

/-- C3 (amended): the filtering predicate upper-cases the configured
agency filter once, then compares the derived agency against it with an
exact, case-sensitive comparison; hence lower-case filters match
upper-case docket prefixes, but lower-case docket prefixes never match. -/
theorem c3_agency_filter_semantics (af name : String) (h : af.data.isEmpty = false) :
    should_process_docket (add_filters emptyFilters (some af) none) name
      = decide (derive_agency name = pyUpper af) := by
  have h2 : (pyUpper af).data.isEmpty = false := by
    cases haf : af.data with
    | nil => rw [haf] at h; simp at h
    | cons x xs => simp [pyUpper, haf]
  simp [add_filters, emptyFilters, should_process_docket, h, h2]

/-- C3 witness: a lower-case filter matches an upper-case docket prefix. -/
theorem c3_agency_filter_semantics_witness :
    should_process_docket (add_filters emptyFilters (some "cms") none) "CMS-2025-0020"
      = decide (derive_agency "CMS-2025-0020" = pyUpper "cms") :=
  c3_agency_filter_semantics "cms" "CMS-2025-0020" rfl

/-- C4 counterexample: a run whose only docket raised a non-fatal error
(no fatal permission/IO error, pre-flight passed) still exits with a
non-zero status, contradicting the claimed equivalence. -/
theorem c4_nonfatal_error_nonzero_exit :
    main_exit true [[DocketOutcome.nonFatalError]] = 1
    ∧ hasFatal [[DocketOutcome.nonFatalError]] = false := by
  constructor
  · rfl
  · rfl

theorem run_agency_errors_clean (a : List DocketOutcome) (s : Stats)
    (h : ∀ o ∈ a, o = DocketOutcome.saved ∨ o = DocketOutcome.noData) :
    (run_agency s a).errors = s.errors := by
  induction a generalizing s with
  | nil => rfl
  | cons o rest ih =>
    have hrest : ∀ x ∈ rest, x = DocketOutcome.saved ∨ x = DocketOutcome.noData :=
      fun x hx => h x (List.mem_cons_of_mem _ hx)
    rcases h o (List.mem_cons_self _ _) with rfl | rfl
    · simpa [run_agency, outcome_step] using ih _ hrest
    · simpa [run_agency, outcome_step] using ih _ hrest

theorem run_all_errors_clean (ags : List (List DocketOutcome)) (s : Stats)
    (h : ∀ a ∈ ags, ∀ o ∈ a, o = DocketOutcome.saved ∨ o = DocketOutcome.noData) :
    (run_all s ags).errors = s.errors := by
  induction ags generalizing s with
  | nil => rfl
  | cons a rest ih =>
    have hrest : ∀ x ∈ rest, ∀ o ∈ x, o = DocketOutcome.saved ∨ o = DocketOutcome.noData :=
      fun x hx => h x (List.mem_cons_of_mem _ hx)
    have ha := h a (List.mem_cons_self _ _)
    simp only [run_all]
    rw [ih _ hrest, run_agency_errors_clean a s ha]

/-- C4 (amended): the process exits with status zero exactly when the
permission pre-flight passed and the error counter ended at zero — the
counter is incremented by every per-docket exception, non-fatal ones
included, so such errors also force a non-zero exit; and a run whose
dockets were all saved or skipped for lacking data keeps the counter at
zero. -/
theorem c4_exit_status (pre : Bool) (ags : List (List DocketOutcome)) :
    (main_exit pre ags = 0 ↔ (pre = true ∧ (run_all stats0 ags).errors = 0))
    ∧ ((∀ a ∈ ags, ∀ o ∈ a, o = DocketOutcome.saved ∨ o = DocketOutcome.noData) →
        (run_all stats0 ags).errors = 0) := by
  constructor
  · cases pre <;>
      by_cases h : (run_all stats0 ags).errors = 0 <;>
        simp [main_exit, convert_all, h]
  · intro h
    exact run_all_errors_clean ags stats0 h

/-- C4 witness: a run of one saved and one skipped docket exits zero. -/
theorem c4_exit_status_witness :
    main_exit true [[DocketOutcome.saved], [DocketOutcome.noData]] = 0 := by
  have h := c4_exit_status true [[DocketOutcome.saved], [DocketOutcome.noData]]
  exact h.1.mpr ⟨rfl, h.2 (by decide)⟩

/-- C5: agency derivation — the three documented examples, and the
general characterisation: the segment before the first `/` when one
occurs, else the segment before the first `-`, else `UNKNOWN`. -/
theorem c5_agency_derivation :
    derive_agency "DEA-2016-0015" = "DEA"
    ∧ derive_agency "ACF/ACF-2024-0005" = "ACF"
    ∧ derive_agency "noseparator" = "UNKNOWN"
    ∧ (∀ a b : String, '/' ∉ a.data →
        derive_agency (String.mk (a.data ++ '/' :: b.data)) = a)
    ∧ (∀ a b : String, '/' ∉ a.data → '/' ∉ b.data → '-' ∉ a.data →
        derive_agency (String.mk (a.data ++ '-' :: b.data)) = a)
    ∧ (∀ s : String, '/' ∉ s.data → '-' ∉ s.data → derive_agency s = "UNKNOWN") := by
  refine ⟨by decide, by decide, by decide, ?_, ?_, ?_⟩
  · intro a b h
    have hin : pyIn '/' (String.mk (a.data ++ '/' :: b.data)) = true :=
      pyIn_true_of_mem _ _ (by simp)
    simp only [derive_agency, hin, if_true, firstSplit]
    rw [takeWhile_append_sep '/' a.data b.data h]
  · intro a b h1 h2 h3
    have hnin : pyIn '/' (String.mk (a.data ++ '-' :: b.data)) = false := by
      refine pyIn_false_of_notin _ _ ?_
      simp only [List.mem_append, List.mem_cons]
      rintro (hc | hc | hc)
      · exact h1 hc
      · cases hc
      · exact h2 hc
    have hin : pyIn '-' (String.mk (a.data ++ '-' :: b.data)) = true :=
      pyIn_true_of_mem _ _ (by simp)
    simp only [derive_agency, hnin, hin, if_true, firstSplit, Bool.false_eq_true, if_false]
    rw [takeWhile_append_sep '-' a.data b.data h3]
  · intro s h1 h2
    have hn1 : pyIn '/' s = false := pyIn_false_of_notin _ _ h1
    have hn2 : pyIn '-' s = false := pyIn_false_of_notin _ _ h2
    simp [derive_agency, hn1, hn2]

/-- C5 witness: the characterisation applied at concrete identifiers. -/
theorem c5_agency_derivation_witness :
    derive_agency (String.mk ("DEA".data ++ '-' :: "2016-0015".data)) = "DEA" :=
  c5_agency_derivation.2.2.2.2.1 "DEA" "2016-0015" (by decide) (by decide) (by decide)

/-- C7: a docket whose extraction produced no docket info, no documents
and no comments is counted as skipped (processed and errors unchanged)
and performs no write effects at all: no directory is created and no
file is written. -/
theorem c7_empty_docket_skipped (useSub : Bool) (outPath : FPath) (s : Stats)
    (d : DocketResult) (h1 : d.docket_info = none) (h2 : d.documents = [])
    (h3 : d.comments = []) :
    docket_step useSub outPath s d
      = (⟨s.processed, s.skipped + 1, s.errors⟩, ([] : List WriteOp)) := by
  simp [docket_step, save_docket_dataset, h1, h2, h3]

/-- C7 witness: the empty docket result at concrete inputs. -/
theorem c7_empty_docket_skipped_witness :
    docket_step false ["out"] stats0 ⟨none, [], [], "DEA", "DEA-2016-0015"⟩
      = (⟨0, 1, 0⟩, ([] : List WriteOp)) :=
  c7_empty_docket_skipped false ["out"] stats0 _ rfl rfl rfl

/-- C8: the write effects of saving one docket are exactly one directory
creation plus one `<table>.parquet` write per truthy table, all under the
specification's path formula `<output_root>[/derived-data]/<agency>/
<docketId>/iceberg`, whose `derived-data` segment appears exactly when an
explicit output root was configured. -/
theorem c8_output_layout (dp : FPath) (op : Option FPath) (d : DocketResult) :
    (save_docket_dataset (converter_init dp op).2 (converter_init dp op).1 d).2 =
      (match d.docket_info with
       | some r => if r.isEmpty then [] else
           [WriteOp.mkdirAll (expected_output_dir dp op d),
            WriteOp.writeFile (expected_output_dir dp op d ++ ["docket_info.parquet"])]
       | none => []) ++
      (if d.documents.isEmpty then [] else
          [WriteOp.mkdirAll (expected_output_dir dp op d),
           WriteOp.writeFile (expected_output_dir dp op d ++ ["documents.parquet"])]) ++
      (if d.comments.isEmpty then [] else
          [WriteOp.mkdirAll (expected_output_dir dp op d),
           WriteOp.writeFile (expected_output_dir dp op d ++ ["comments.parquet"])]) := by
  rcases d with ⟨di, docs, coms, ag, did⟩
  cases op with
  | none =>
    cases di with
    | none =>
      by_cases hd : docs.isEmpty <;> by_cases hc : coms.isEmpty <;>
        simp [save_docket_dataset, converter_init, save_to_parquet,
          expected_output_dir, hd, hc, List.append_assoc]
    | some r =>
      by_cases hr : r.isEmpty <;> by_cases hd : docs.isEmpty <;>
        by_cases hc : coms.isEmpty <;>
          simp [save_docket_dataset, converter_init, save_to_parquet,
            expected_output_dir, hr, hd, hc, List.append_assoc]
  | some root =>
    cases di with
    | none =>
      by_cases hd : docs.isEmpty <;> by_cases hc : coms.isEmpty <;>
        simp [save_docket_dataset, converter_init, save_to_parquet,
          expected_output_dir, hd, hc, List.append_assoc]
    | some r =>
      by_cases hr : r.isEmpty <;> by_cases hd : docs.isEmpty <;>
        by_cases hc : coms.isEmpty <;>
          simp [save_docket_dataset, converter_init, save_to_parquet,
            expected_output_dir, hr, hd, hc, List.append_assoc]

/-- C9: the comment flattener is deterministic, `has_attachments` is true
exactly when the `attachments` relationship's `data` list is non-empty
with `attachment_count` its length, and an absent or empty top-level
`included` list yields `has_included_attachments = false` and
`included_attachment_count = 0`. -/
theorem c9_comment_flattener (jf df lf attrs rels ad : List (String × Json))
    (xs : List Json)
    (hd : olookup jf "data" = some (.obj df))
    (hl : olookup df "links" = some (.obj lf))
    (ha : olookup df "attributes" = some (.obj attrs))
    (hr : olookup df "relationships" = some (.obj rels))
    (hat : olookup rels "attachments" = some (.obj ad))
    (hdata : olookup ad "data" = some (.arr xs))
    (hincl : olookup jf "included" = none
      ∨ ∃ incl, olookup jf "included" = some (.arr incl)) :
    flatten_comment_data (.obj jf) = flatten_comment_data (.obj jf)
    ∧ ∃ row, flatten_comment_data (.obj jf) = .ok row
        ∧ olookup row "has_attachments" = some (.bool (decide (0 < xs.length)))
        ∧ olookup row "attachment_count" = some (.num (Int.ofNat xs.length))
        ∧ ((olookup jf "included" = none ∨ olookup jf "included" = some (.arr [])) →
            olookup row "has_included_attachments" = some (.bool false)
            ∧ olookup row "included_attachment_count" = some (.num 0)) := by
  refine ⟨rfl, ?_⟩
  simp only [flatten_comment_data, pyDictGetD, ebind, asObj, hd, hl, ha, hr, hat, hdata,
    Option.getD_some, pyLen]
  rcases hincl with hi | ⟨incl, hi⟩
  · rw [hi]
    simp only [Option.getD_none, pyTruthy, List.isEmpty_nil, Bool.not_true,
      Bool.false_eq_true, if_false]
    refine ⟨_, rfl, ?_, ?_, fun _ => ⟨?_, ?_⟩⟩
    · rw [olookup_dinsert_ne _ _ _ _ (by decide), olookup_dinsert_ne _ _ _ _ (by decide),
        olookup_dinsert_ne _ _ _ _ (by decide), olookup_dinsert_self]
    · rw [olookup_dinsert_ne _ _ _ _ (by decide), olookup_dinsert_ne _ _ _ _ (by decide),
        olookup_dinsert_self]
    · rw [olookup_dinsert_ne _ _ _ _ (by decide), olookup_dinsert_self]
    · rw [olookup_dinsert_self]
  · rw [hi]
    simp only [Option.getD_some, pyTruthy]
    cases incl with
    | nil =>
      simp only [List.isEmpty_nil, Bool.not_true, Bool.false_eq_true, if_false]
      refine ⟨_, rfl, ?_, ?_, fun _ => ⟨?_, ?_⟩⟩
      · rw [olookup_dinsert_ne _ _ _ _ (by decide), olookup_dinsert_ne _ _ _ _ (by decide),
          olookup_dinsert_ne _ _ _ _ (by decide), olookup_dinsert_self]
      · rw [olookup_dinsert_ne _ _ _ _ (by decide), olookup_dinsert_ne _ _ _ _ (by decide),
          olookup_dinsert_self]
      · rw [olookup_dinsert_ne _ _ _ _ (by decide), olookup_dinsert_self]
      · rw [olookup_dinsert_self]
    | cons x rest =>
      simp only [List.isEmpty_cons, Bool.not_false, if_true, pyLen]
      refine ⟨_, rfl, ?_, ?_, ?_⟩
      · rw [olookup_dinsert_ne _ _ _ _ (by decide), olookup_dinsert_ne _ _ _ _ (by decide),
          olookup_dinsert_ne _ _ _ _ (by decide), olookup_dinsert_self]
      · rw [olookup_dinsert_ne _ _ _ _ (by decide), olookup_dinsert_ne _ _ _ _ (by decide),
          olookup_dinsert_self]
      · intro hcontra
        rcases hcontra with hc | hc <;> simp at hc

/-- C9 witness: a concrete comment with one attachment and no included
list. -/
theorem c9_comment_flattener_witness :
    ∃ row, flatten_comment_data (.obj c9jf) = .ok row
      ∧ olookup row "has_attachments" = some (.bool (decide (0 < [Json.null].length)))
      ∧ olookup row "attachment_count" = some (.num (Int.ofNat [Json.null].length))
      ∧ ((olookup c9jf "included" = none ∨ olookup c9jf "included" = some (.arr [])) →
          olookup row "has_included_attachments" = some (.bool false)
          ∧ olookup row "included_attachment_count" = some (.num 0)) :=
  (c9_comment_flattener c9jf c9df [("self", .str "url")] [("title", .str "t")]
    [("attachments", .obj [("data", .arr [.null])])] [("data", .arr [.null])]
    [Json.null] rfl rfl rfl rfl rfl rfl (Or.inl rfl)).2

theorem olookup_cons (k0 : String) (v0 : Json) (rest : Row) (key : String) :
    olookup ((k0, v0) :: rest) key = if k0 = key then some v0 else olookup rest key := rfl

theorem comment_derived_preserve (R : Row) (k : String) (b1 b2 : Bool) (n1 n2 : Int)
    (h1 : "has_attachments" ≠ k) (h2 : "attachment_count" ≠ k)
    (h3 : "has_included_attachments" ≠ k) (h4 : "included_attachment_count" ≠ k) :
    olookup (dinsert (dinsert (dinsert (dinsert R "has_attachments" (.bool b1))
        "attachment_count" (.num n1)) "has_included_attachments" (.bool b2))
        "included_attachment_count" (.num n2)) k = olookup R k := by
  rw [olookup_dinsert_ne _ _ _ _ h4, olookup_dinsert_ne _ _ _ _ h3,
    olookup_dinsert_ne _ _ _ _ h2, olookup_dinsert_ne _ _ _ _ h1]

/-- C10: in all three flatteners the attribute spread happens after the
base `id`/`type`/`link` fields are set, so a non-null attribute named
`id`, `type` or `link` overwrites the value copied from `data.id`,
`data.type` or `data.links.self` in the resulting row. -/
theorem c10_attribute_spread_overwrites :
    (∀ jf df lf attrs rels k v row,
      olookup jf "data" = some (.obj df) →
      olookup df "links" = some (.obj lf) →
      olookup df "attributes" = some (.obj attrs) →
      olookup df "relationships" = some (.obj rels) →
      (attrs.map Prod.fst).Nodup → (k, v) ∈ attrs → v.isNull = false →
      (k = "id" ∨ k = "type" ∨ k = "link") →
      flatten_docket_data (.obj jf) = .ok row →
      olookup row k = some v)
    ∧ (∀ jf df lf attrs rels k v row,
      olookup jf "data" = some (.obj df) →
      olookup df "links" = some (.obj lf) →
      olookup df "attributes" = some (.obj attrs) →
      olookup df "relationships" = some (.obj rels) →
      (attrs.map Prod.fst).Nodup → (k, v) ∈ attrs → v.isNull = false →
      (k = "id" ∨ k = "type" ∨ k = "link") →
      flatten_document_data (.obj jf) = .ok row →
      olookup row k = some v)
    ∧ (∀ jf df lf attrs rels ad xs k v,
      olookup jf "data" = some (.obj df) →
      olookup df "links" = some (.obj lf) →
      olookup df "attributes" = some (.obj attrs) →
      olookup df "relationships" = some (.obj rels) →
      olookup rels "attachments" = some (.obj ad) →
      olookup ad "data" = some (.arr xs) →
      (olookup jf "included" = none ∨ ∃ incl, olookup jf "included" = some (.arr incl)) →
      (attrs.map Prod.fst).Nodup → (k, v) ∈ attrs → v.isNull = false →
      (k = "id" ∨ k = "type" ∨ k = "link") →
      ∃ row, flatten_comment_data (.obj jf) = .ok row ∧ olookup row k = some v) := by
  refine ⟨?_, ?_, ?_⟩
  · intro jf df lf attrs rels k v row hd hl ha hr hnd hmem hv hk hok
    simp only [flatten_docket_data, pyDictGetD, ebind, asObj, hd, hl, ha, hr,
      Option.getD_some] at hok
    have hkne : ∀ p ∈ rels, p.1 ++ "_count" ≠ k := by
      intro p hp
      rcases hk with rfl | rfl | rfl <;> exact count_key_ne _ _ (by decide)
    rw [relFold_preserve rels _ row k hok hkne]
    exact attrFold_olookup_mem attrs _ k v hnd hmem hv
  · intro jf df lf attrs rels k v row hd hl ha hr hnd hmem hv hk hok
    simp only [flatten_document_data, pyDictGetD, ebind, asObj, hd, hl, ha, hr,
      Option.getD_some] at hok
    have hkne : ∀ p ∈ rels, p.1 ++ "_count" ≠ k := by
      intro p hp
      rcases hk with rfl | rfl | rfl <;> exact count_key_ne _ _ (by decide)
    rw [relFold_preserve rels _ row k hok hkne]
    exact attrFold_olookup_mem attrs _ k v hnd hmem hv
  · intro jf df lf attrs rels ad xs k v hd hl ha hr hat hdata hincl hnd hmem hv hk
    have hkderived : ("has_attachments" : String) ≠ k
        ∧ ("attachment_count" : String) ≠ k
        ∧ ("has_included_attachments" : String) ≠ k
        ∧ ("included_attachment_count" : String) ≠ k := by
      rcases hk with rfl | rfl | rfl <;> exact ⟨by decide, by decide, by decide, by decide⟩
    obtain ⟨n1, n2, n3, n4⟩ := hkderived
    have hbase := attrFold_olookup_mem attrs
      [("id", (olookup df "id").getD Json.null),
       ("link", (olookup lf "self").getD Json.null),
       ("type", (olookup df "type").getD Json.null)] k v hnd hmem hv
    simp only [flatten_comment_data, pyDictGetD, ebind, asObj, hd, hl, ha, hr, hat, hdata,
      Option.getD_some, pyLen]
    rcases hincl with hi | ⟨incl, hi⟩
    · rw [hi]
      simp only [Option.getD_none, pyTruthy, List.isEmpty_nil, Bool.not_true,
        Bool.false_eq_true, if_false]
      exact ⟨_, rfl, by rw [comment_derived_preserve _ _ _ _ _ _ n1 n2 n3 n4]; exact hbase⟩
    · rw [hi]
      simp only [Option.getD_some, pyTruthy]
      cases incl with
      | nil =>
        simp only [List.isEmpty_nil, Bool.not_true, Bool.false_eq_true, if_false]
        exact ⟨_, rfl, by rw [comment_derived_preserve _ _ _ _ _ _ n1 n2 n3 n4]; exact hbase⟩
      | cons x rest =>
        simp only [List.isEmpty_cons, Bool.not_false, if_true, pyLen]
        exact ⟨_, rfl, by rw [comment_derived_preserve _ _ _ _ _ _ n1 n2 n3 n4]; exact hbase⟩

/-- C10 witness: a comment whose `attributes` carry a non-null `id`
shadows `data.id` in the flat row. -/
theorem c10_attribute_spread_overwrites_witness :
    ∃ row, flatten_comment_data (.obj c10jf) = .ok row
      ∧ olookup row "id" = some (.str "SHADOW") :=
  c10_attribute_spread_overwrites.2.2 c10jf c10df [("self", .str "url")]
    [("id", .str "SHADOW")] [("attachments", .obj [("data", .arr [])])]
    [("data", .arr [])] [] "id" (.str "SHADOW")
    rfl rfl rfl rfl rfl rfl (Or.inl rfl) (by decide) (List.mem_singleton.mpr rfl) rfl
    (Or.inl rfl)

/-- C1 counterexample: on the same JSON-API record with a single
relationship `foo` carrying a one-element `data` list, the docket
flattener emits `foo_count = 1`, but the comment flattener emits no
`foo_count` column at all. -/
theorem c1_comment_flattener_drops_rel_counts :
    (flatten_comment_data fooRelJson).map (fun r => olookup r "foo_count") = .ok none
    ∧ (flatten_docket_data fooRelJson).map (fun r => olookup r "foo_count")
        = .ok (some (.num 1)) := by
  constructor
  · rfl
  · rfl

/-- C1 (amended): the docket and document flatteners produce a flat row
with `id`, `type`, `link` and one `<relationship>_count` column per
relationship carrying a `data` list; the comment flattener instead emits
only `has_attachments`/`attachment_count`, derived from the `attachments`
relationship, and no generic `<relationship>_count` columns. -/
theorem c1_relationship_counts :
    (∀ jf df lf attrs rels rd xs nm row,
      olookup jf "data" = some (.obj df) →
      olookup df "links" = some (.obj lf) →
      olookup df "attributes" = some (.obj attrs) →
      olookup df "relationships" = some (.obj rels) →
      (rels.map Prod.fst).Nodup → (nm, Json.obj rd) ∈ rels →
      olookup rd "data" = some (.arr xs) →
      flatten_docket_data (.obj jf) = .ok row →
      olookup row (nm ++ "_count") = some (.num (Int.ofNat xs.length))
      ∧ (olookup row "id").isSome ∧ (olookup row "type").isSome
      ∧ (olookup row "link").isSome)
    ∧ (∀ jf df lf attrs rels rd xs nm row,
      olookup jf "data" = some (.obj df) →
      olookup df "links" = some (.obj lf) →
      olookup df "attributes" = some (.obj attrs) →
      olookup df "relationships" = some (.obj rels) →
      (rels.map Prod.fst).Nodup → (nm, Json.obj rd) ∈ rels →
      olookup rd "data" = some (.arr xs) →
      flatten_document_data (.obj jf) = .ok row →
      olookup row (nm ++ "_count") = some (.num (Int.ofNat xs.length))
      ∧ (olookup row "id").isSome ∧ (olookup row "type").isSome
      ∧ (olookup row "link").isSome)
    ∧ (∀ jf df lf attrs rels ad xs,
      olookup jf "data" = some (.obj df) →
      olookup df "links" = some (.obj lf) →
      olookup df "attributes" = some (.obj attrs) →
      olookup df "relationships" = some (.obj rels) →
      olookup rels "attachments" = some (.obj ad) →
      olookup ad "data" = some (.arr xs) →
      (olookup jf "included" = none ∨ ∃ incl, olookup jf "included" = some (.arr incl)) →
      ∃ row, flatten_comment_data (.obj jf) = .ok row
        ∧ olookup row "attachment_count" = some (.num (Int.ofNat xs.length))
        ∧ olookup row "has_attachments" = some (.bool (decide (0 < xs.length)))
        ∧ (∀ nm : String, (nm ++ "_count") ∉ attrs.map Prod.fst →
            nm ++ "_count" ≠ "attachment_count" →
            nm ++ "_count" ≠ "included_attachment_count" →
            olookup row (nm ++ "_count") = none)) := by
  refine ⟨?_, ?_, ?_⟩
  · intro jf df lf attrs rels rd xs nm row hd hl ha hr hnd hmem hdata hok
    simp only [flatten_docket_data, pyDictGetD, ebind, asObj, hd, hl, ha, hr,
      Option.getD_some] at hok
    refine ⟨relFold_count rels _ row nm rd xs hnd hmem hdata hok, ?_, ?_, ?_⟩
    · exact relFold_isSome rels _ row "id" hok
        (attrFold_isSome attrs _ "id" (by simp [olookup_cons]))
    · exact relFold_isSome rels _ row "type" hok
        (attrFold_isSome attrs _ "type" (by simp [olookup_cons]))
    · exact relFold_isSome rels _ row "link" hok
        (attrFold_isSome attrs _ "link" (by simp [olookup_cons]))
  · intro jf df lf attrs rels rd xs nm row hd hl ha hr hnd hmem hdata hok
    simp only [flatten_document_data, pyDictGetD, ebind, asObj, hd, hl, ha, hr,
      Option.getD_some] at hok
    refine ⟨relFold_count rels _ row nm rd xs hnd hmem hdata hok, ?_, ?_, ?_⟩
    · exact relFold_isSome rels _ row "id" hok
        (attrFold_isSome attrs _ "id" (by simp [olookup_cons]))
    · exact relFold_isSome rels _ row "type" hok
        (attrFold_isSome attrs _ "type" (by simp [olookup_cons]))
    · exact relFold_isSome rels _ row "link" hok
        (attrFold_isSome attrs _ "link" (by simp [olookup_cons]))
  · intro jf df lf attrs rels ad xs hd hl ha hr hat hdata hincl
    have hnone : ∀ nm : String, (nm ++ "_count") ∉ attrs.map Prod.fst →
        olookup (attrFold [("id", (olookup df "id").getD Json.null),
          ("link", (olookup lf "self").getD Json.null),
          ("type", (olookup df "type").getD Json.null)] attrs) (nm ++ "_count") = none := by
      intro nm hnotin
      have hid : ("id" : String) ≠ nm ++ "_count" :=
        fun h => count_key_ne nm "id" (by decide) h.symm
      have hlk : ("link" : String) ≠ nm ++ "_count" :=
        fun h => count_key_ne nm "link" (by decide) h.symm
      have hty : ("type" : String) ≠ nm ++ "_count" :=
        fun h => count_key_ne nm "type" (by decide) h.symm
      rw [attrFold_olookup_notin attrs _ _ hnotin, olookup_cons, if_neg hid,
        olookup_cons, if_neg hlk, olookup_cons, if_neg hty]
      rfl
    have hstep : ∀ (R : Row) (nm : String), nm ++ "_count" ≠ "attachment_count" →
        nm ++ "_count" ≠ "included_attachment_count" → (b1 b2 : Bool) → (n1 n2 : Int) →
        olookup (dinsert (dinsert (dinsert (dinsert R "has_attachments" (.bool b1))
          "attachment_count" (.num n1)) "has_included_attachments" (.bool b2))
          "included_attachment_count" (.num n2)) (nm ++ "_count") = olookup R (nm ++ "_count") := by
      intro R nm hne1 hne2 b1 b2 n1 n2
      exact comment_derived_preserve R (nm ++ "_count") b1 b2 n1 n2
        (fun h => count_key_ne nm "has_attachments" (by decide) h.symm) hne1.symm
        (fun h => count_key_ne nm "has_included_attachments" (by decide) h.symm) hne2.symm
    simp only [flatten_comment_data, pyDictGetD, ebind, asObj, hd, hl, ha, hr, hat, hdata,
      Option.getD_some, pyLen]
    rcases hincl with hi | ⟨incl, hi⟩
    · rw [hi]
      simp only [Option.getD_none, pyTruthy, List.isEmpty_nil, Bool.not_true,
        Bool.false_eq_true, if_false]
      refine ⟨_, rfl, ?_, ?_, ?_⟩
      · rw [olookup_dinsert_ne _ _ _ _ (by decide), olookup_dinsert_ne _ _ _ _ (by decide),
          olookup_dinsert_self]
      · rw [olookup_dinsert_ne _ _ _ _ (by decide), olookup_dinsert_ne _ _ _ _ (by decide),
          olookup_dinsert_ne _ _ _ _ (by decide), olookup_dinsert_self]
      · intro nm hnotin hne1 hne2
        rw [hstep _ nm hne1 hne2 _ _ _ _]
        exact hnone nm hnotin
    · rw [hi]
      simp only [Option.getD_some, pyTruthy]
      cases incl with
      | nil =>
        simp only [List.isEmpty_nil, Bool.not_true, Bool.false_eq_true, if_false]
        refine ⟨_, rfl, ?_, ?_, ?_⟩
        · rw [olookup_dinsert_ne _ _ _ _ (by decide), olookup_dinsert_ne _ _ _ _ (by decide),
            olookup_dinsert_self]
        · rw [olookup_dinsert_ne _ _ _ _ (by decide), olookup_dinsert_ne _ _ _ _ (by decide),
            olookup_dinsert_ne _ _ _ _ (by decide), olookup_dinsert_self]
        · intro nm hnotin hne1 hne2
          rw [hstep _ nm hne1 hne2 _ _ _ _]
          exact hnone nm hnotin
      | cons x rest =>
        simp only [List.isEmpty_cons, Bool.not_false, if_true, pyLen]
        refine ⟨_, rfl, ?_, ?_, ?_⟩
        · rw [olookup_dinsert_ne _ _ _ _ (by decide), olookup_dinsert_ne _ _ _ _ (by decide),
            olookup_dinsert_self]
        · rw [olookup_dinsert_ne _ _ _ _ (by decide), olookup_dinsert_ne _ _ _ _ (by decide),
            olookup_dinsert_ne _ _ _ _ (by decide), olookup_dinsert_self]
        · intro nm hnotin hne1 hne2
          rw [hstep _ nm hne1 hne2 _ _ _ _]
          exact hnone nm hnotin

/-- C1 witness: the comment conjunct applied to the concrete comment
document. -/
theorem c1_relationship_counts_witness :
    ∃ row, flatten_comment_data (.obj c9jf) = .ok row
      ∧ olookup row "attachment_count" = some (.num (Int.ofNat [Json.null].length))
      ∧ olookup row "has_attachments" = some (.bool (decide (0 < [Json.null].length)))
      ∧ (∀ nm : String, (nm ++ "_count") ∉ ([("title", Json.str "t")].map Prod.fst) →
          nm ++ "_count" ≠ "attachment_count" →
          nm ++ "_count" ≠ "included_attachment_count" →
          olookup row (nm ++ "_count") = none) :=
  c1_relationship_counts.2.2 c9jf c9df [("self", .str "url")] [("title", .str "t")]
    [("attachments", .obj [("data", .arr [.null])])] [("data", .arr [.null])]
    [Json.null] rfl rfl rfl rfl rfl rfl (Or.inl rfl)

/-- C6 counterexample: in a store where `<root>/raw-data` exists but is
empty while the direct-flat variant `<root>/documents` holds one
well-formed document, resolution returns an entirely empty dataset — it
does not fall through to the direct variants, although they would yield
a non-empty documents source. -/
theorem c6_no_fallthrough_when_rawdata_empty :
    process_docket cexFS cexRoot
      = .ok ⟨none, [], [], "FAA", "FAA-2000-7032"⟩
    ∧ flatDirRows flatten_document_data cexFS (cexRoot ++ ["documents"])
      = .ok [[("id", .str "FAA-2000-7032-0001"), ("type", .str "documents"),
              ("link", .null)]] := by
  constructor
  · rfl
  · rfl

/-- C6 (amended): for each source kind resolution probes flat before
`text-*` within one base directory, taking the first non-empty source;
the base is `<root>/raw-data` whenever that directory exists and the
docket root itself only when `raw-data` does not exist — a kind for which
the raw-data variants yield nothing resolves to nothing, with no
fall-through to the direct variants. -/
theorem c6_layout_resolution_order (fs : FS) (root : FPath)
    (h : fs.pathExists root = true) :
    (fs.pathExists (root ++ ["raw-data"]) = true →
      process_docket fs root
        = ebind (resolveKinds fs (root ++ ["raw-data"]) (lastName root)) (fun r =>
            .ok ⟨r.1, r.2.1, r.2.2, derive_agency (lastName root), lastName root⟩))
    ∧ (fs.pathExists (root ++ ["raw-data"]) = false →
      process_docket fs root
        = ebind (resolveKinds fs root (lastName root)) (fun r =>
            .ok ⟨r.1, r.2.1, r.2.2, derive_agency (lastName root), lastName root⟩))
    ∧ (∀ (flat : Json → Except Unit Row) (base : FPath) (kind : String) (l : List Row),
        flatDirRows flat fs (base ++ [kind]) = .ok l → l ≠ [] →
        resolveKindRows flat fs base kind = .ok l)
    ∧ (∀ (base : FPath) (id : String) (j : Json) (r : Row),
        fs.pathExists (base ++ ["docket", id ++ ".json"]) = true →
        fs.load (base ++ ["docket", id ++ ".json"]) = some j →
        pyTruthy j = true → flatten_docket_data j = .ok r →
        resolveDocketInfo fs base id = .ok (some r)) := by
  refine ⟨?_, ?_, ?_, ?_⟩
  · intro hraw
    simp [process_docket, h, hraw]
  · intro hraw
    simp [process_docket, h, hraw]
  · intro flat base kind l hflat hne
    have hempty : l.isEmpty = false := by
      cases l with
      | nil => exact absurd rfl hne
      | cons a rest => rfl
    simp [resolveKindRows, hflat, ebind, hempty]
  · intro base id j r hex hload htr hflat
    simp [resolveDocketInfo, hex, hload, htr, hflat, ebind]

/-- C6 witness: the resolution-order theorem applied to the concrete
store where `raw-data` exists. -/
theorem c6_layout_resolution_order_witness :
    process_docket cexFS cexRoot
      = ebind (resolveKinds cexFS (cexRoot ++ ["raw-data"]) (lastName cexRoot)) (fun r =>
          .ok ⟨r.1, r.2.1, r.2.2, derive_agency (lastName cexRoot), lastName cexRoot⟩) :=
  (c6_layout_resolution_order cexFS cexRoot rfl).1 rfl
